import Mathlib

/-!
Verification of the npm-sitemap library (record store + XML serializer).

The definitions below are a shallow embedding of the TypeScript sources:

* `src/types/SitemapTypes.ts`   — the data model (records, configuration),
* `src/utils/XmlUtils.ts`       — `escapeXml`, `wrapCDATA`,
* `src/validators/UrlValidator.ts` (in `src/interfaces/index.ts`) —
  `isValidUrl`, `normalizeUrl`, `resolveUrl`,
* `src/validators/DataValidator.ts` — the validation engine,
* `src/sitemap/Model.ts`        — the internal store,
* `src/sitemap/Sitemap.ts`      — `add`, `addItem`, `toXML`,
  `renderSitemapItem`, and the `SitemapIndex` class.

Platform primitives (the WHATWG `URL` class, the JavaScript `Date` parser and
number printing) are modelled by explicit executable functions, each documented
at its definition.  Stateful methods are embedded in state-passing style: a
method that can `throw` returns the record list it leaves behind together with
`Option String`, the thrown message (`none` when no exception is raised).

JavaScript `undefined` optional fields are modelled with `Option`; optional
arrays are modelled as plain lists with `[]` for `undefined` (the two are
observationally equal in every code path embedded here: each use is either
`xs && xs.length > 0`, or a `for … of` loop guarded by truthiness, both of
which treat `undefined` and `[]` identically).
-/

/-! ## Data model (`src/types/SitemapTypes.ts`) -/

/-- Image metadata (`ImageItem`). -/
structure ImageItem where
  url : String
  title : Option String := none
  caption : Option String := none
  geo_location : Option String := none
  license : Option String := none
deriving DecidableEq, Repr

/-- Video metadata (`VideoItem`).  `duration` is an integer count of seconds
(the validator rejects non-integers, so `Int` is the faithful carrier);
`rating` is a JavaScript number modelled as `Rat`.  Date-valued metadata
fields are modelled in their string form. -/
structure VideoItem where
  title : String
  description : String
  thumbnail_url : String
  duration : Option Int := none
  expiration_date : Option String := none
  rating : Option Rat := none
  view_count : Option Nat := none
  publication_date : Option String := none
  family_friendly : Option Bool := none
  restriction : Option String := none
  gallery_loc : Option String := none
  price : Option String := none
  requires_subscription : Option Bool := none
  platform : Option String := none
  live : Option Bool := none
deriving DecidableEq, Repr

/-- Alternate-language version (`TranslationItem`). -/
structure TranslationItem where
  language : String
  url : String
deriving DecidableEq, Repr

/-- Alternate version for devices/formats (`AlternateItem`). -/
structure AlternateItem where
  media : Option String := none
  url : String
deriving DecidableEq, Repr

/-- Google News metadata (`GoogleNewsItem`).  `publication_date` accepts
`string | Date` in the source; the stored string form is modelled. -/
structure GoogleNewsItem where
  sitename : String
  language : String
  publication_date : String
  title : Option String := none
  keywords : Option String := none
  stock_tickers : Option String := none
deriving DecidableEq, Repr

/-- One sitemap record (`SitemapItem`).  `lastmod` accepts `string | Date` in
the source; `Sitemap.add`/`addItem` coerce `Date` inputs to their ISO string
before storage, so stored records carry strings. -/
structure SitemapItem where
  loc : String
  lastmod : Option String := none
  priority : Option Rat := none
  changefreq : Option String := none
  title : Option String := none
  images : List ImageItem := []
  videos : List VideoItem := []
  translations : List TranslationItem := []
  alternates : List AlternateItem := []
  googlenews : Option GoogleNewsItem := none
deriving DecidableEq, Repr

instance : Inhabited SitemapItem := ⟨{ loc := "" }⟩

/-- One sitemap-index record (`SitemapIndexItem`). -/
structure SitemapIndexItem where
  loc : String
  lastmod : Option String := none
deriving DecidableEq, Repr

/-- Main-store configuration (`SitemapConfig`); the field defaults are the
`DEFAULT_CONFIG` of `src/sitemap/Model.ts`, so that a Lean record literal
`{ … }` models `{ ...DEFAULT_CONFIG, ...config }`. -/
structure SitemapConfig where
  escaping : Bool := true
  validate : Bool := true
  maxItems : Nat := 50000
  baseUrl : String := ""
  pretty : Bool := false
  stylesheet : String := ""
  namespaces : List (String × String) := []
deriving DecidableEq, Repr

/-- Index-store configuration (`SitemapIndexConfig`); the field defaults are
`SitemapIndex.DEFAULT_CONFIG` of `src/sitemap/SitemapIndex.ts`. -/
structure SitemapIndexConfig where
  validate : Bool := true
  escaping : Bool := true
  pretty : Bool := true
  baseUrl : String := ""
  stylesheet : String := ""
  maxSitemaps : Nat := 50000
deriving DecidableEq, Repr

/-- Per-call rendering options (`RenderOptions`): absent fields fall back to
the store configuration via `??`. -/
structure RenderOptions where
  pretty : Option Bool := none
  stylesheet : Option String := none
deriving DecidableEq, Repr

/-- Validation error (`ValidationError`).  The source also carries the
offending `value` (of arbitrary type); it is not inspected by any embedded
code path and is omitted. -/
structure ValidationError where
  type : String
  field : String
  message : String
deriving DecidableEq, Repr

/-! ## XML escaping (`src/utils/XmlUtils.ts` and `Sitemap.escapeXml`) -/

/-- One global single-character replacement pass, modelling
`text.replace(/c/g, r)` for a single-character pattern `c`. -/
def replacePass (c : Char) (r : List Char) : List Char → List Char
  | [] => []
  | x :: xs => (if x = c then r else [x]) ++ replacePass c r xs

/-- `escapeXml` (`src/utils/XmlUtils.ts` lines 13-20): the five sequential
global replacements, `&` first. -/
def escapeXml (s : String) : String :=
  ⟨replacePass '\'' "&#39;".data
    (replacePass '"' "&quot;".data
      (replacePass '>' "&gt;".data
        (replacePass '<' "&lt;".data
          (replacePass '&' "&amp;".data s.data))))⟩

/-- `Sitemap.escapeXml` (`src/sitemap/Sitemap.ts` lines 464-476): identity
when escaping is disabled in the configuration, otherwise the five-pass
escaping chain (named `escapeXmlCfg` here because the method shares its name
with the module-level `escapeXml` it duplicates). -/
def escapeXmlCfg (cfg : SitemapConfig) (text : String) : String :=
  if !cfg.escaping then text else escapeXml text

/-- The five XML metacharacters. -/
def xmlSpecials : List Char := ['&', '<', '>', '"', '\'']

/-- The entity each metacharacter is replaced by; other characters map to
themselves. -/
def escCharList (c : Char) : List Char :=
  if c = '&' then "&amp;".data
  else if c = '<' then "&lt;".data
  else if c = '>' then "&gt;".data
  else if c = '"' then "&quot;".data
  else if c = '\'' then "&#39;".data
  else [c]

/-- The four metacharacters other than `&` (these never appear in any entity,
so they must be absent from escaped output entirely). -/
def isRawSpecial (c : Char) : Bool :=
  c = '<' || c = '>' || c = '"' || c = '\''

/-- Does the character list begin with the body of one of the five emitted
entities (the part after `&`)? -/
def entityTail (l : List Char) : Bool :=
  "amp;".data.isPrefixOf l || "lt;".data.isPrefixOf l ||
    "gt;".data.isPrefixOf l || "quot;".data.isPrefixOf l ||
      "#39;".data.isPrefixOf l

/-- No raw metacharacter occurs: `<`, `>`, `"`, `'` are absent and every `&`
is immediately followed by one of the five entity bodies, i.e. every `&` is
the start of an emitted entity rather than a raw occurrence. -/
def noRawSpecials : List Char → Bool
  | [] => true
  | c :: rest =>
    (if c = '&' then entityTail rest else !isRawSpecial c) && noRawSpecials rest

lemma replacePass_append (c : Char) (r : List Char) (a b : List Char) :
    replacePass c r (a ++ b) = replacePass c r a ++ replacePass c r b := by
  induction a with
  | nil => rfl
  | cons x xs ih => simp [replacePass, ih]

/-- The full five-pass chain, as a function on character lists. -/
def escChain (l : List Char) : List Char :=
  replacePass '\'' "&#39;".data
    (replacePass '"' "&quot;".data
      (replacePass '>' "&gt;".data
        (replacePass '<' "&lt;".data
          (replacePass '&' "&amp;".data l))))

lemma escChain_append (a b : List Char) :
    escChain (a ++ b) = escChain a ++ escChain b := by
  simp [escChain, replacePass_append]

lemma escChain_single (x : Char) : escChain [x] = escCharList x := by
  by_cases h1 : x = '&'
  · subst h1; rfl
  · by_cases h2 : x = '<'
    · subst h2; rfl
    · by_cases h3 : x = '>'
      · subst h3; rfl
      · by_cases h4 : x = '"'
        · subst h4; rfl
        · by_cases h5 : x = '\''
          · subst h5; rfl
          · simp [escChain, replacePass, escCharList, h1, h2, h3, h4, h5]

/-- The sequential five-pass chain coincides with the single-pass per-character
substitution: each occurrence of a metacharacter becomes its entity, every
other character is copied. -/
lemma escChain_eq_flatten (l : List Char) :
    escChain l = (l.map escCharList).flatten := by
  induction l with
  | nil => rfl
  | cons x xs ih =>
    have h : x :: xs = [x] ++ xs := rfl
    rw [h, escChain_append, escChain_single]
    simp [ih]

lemma escapeXml_data (s : String) :
    (escapeXml s).data = (s.data.map escCharList).flatten := by
  show escChain s.data = _
  exact escChain_eq_flatten s.data

lemma noRawSpecials_cons_plain (c : Char) (t : List Char)
    (h1 : c ≠ '&') (h2 : isRawSpecial c = false) :
    noRawSpecials (c :: t) = noRawSpecials t := by
  simp [noRawSpecials, h1, h2]

lemma escCharList_of_plain (c : Char) (h : c ∉ xmlSpecials) :
    escCharList c = [c] := by
  simp only [xmlSpecials, List.mem_cons, List.mem_singleton, not_or] at h
  obtain ⟨h1, h2, h3, h4, h5⟩ := h
  simp [escCharList, h1, h2, h3, h4, h5]

lemma noRawSpecials_escCharList (x : Char) (t : List Char)
    (ht : noRawSpecials t = true) :
    noRawSpecials (escCharList x ++ t) = true := by
  by_cases h1 : x = '&'
  · subst h1
    simp only [escCharList, if_pos rfl]
    show noRawSpecials ('&' :: 'a' :: 'm' :: 'p' :: ';' :: t) = true
    have e1 : entityTail ('a' :: 'm' :: 'p' :: ';' :: t) = true := by
      simp [entityTail, List.isPrefixOf]
    rw [show noRawSpecials ('&' :: 'a' :: 'm' :: 'p' :: ';' :: t)
          = (entityTail ('a' :: 'm' :: 'p' :: ';' :: t)
              && noRawSpecials ('a' :: 'm' :: 'p' :: ';' :: t)) from by
        simp [noRawSpecials]]
    rw [e1]
    rw [noRawSpecials_cons_plain 'a' _ (by decide) (by decide)]
    rw [noRawSpecials_cons_plain 'm' _ (by decide) (by decide)]
    rw [noRawSpecials_cons_plain 'p' _ (by decide) (by decide)]
    rw [noRawSpecials_cons_plain ';' _ (by decide) (by decide)]
    simpa using ht
  · by_cases h2 : x = '<'
    · subst h2
      simp only [escCharList]
      show noRawSpecials ('&' :: 'l' :: 't' :: ';' :: t) = true
      have e1 : entityTail ('l' :: 't' :: ';' :: t) = true := by
        simp [entityTail, List.isPrefixOf]
      rw [show noRawSpecials ('&' :: 'l' :: 't' :: ';' :: t)
            = (entityTail ('l' :: 't' :: ';' :: t)
                && noRawSpecials ('l' :: 't' :: ';' :: t)) from by
          simp [noRawSpecials]]
      rw [e1]
      rw [noRawSpecials_cons_plain 'l' _ (by decide) (by decide)]
      rw [noRawSpecials_cons_plain 't' _ (by decide) (by decide)]
      rw [noRawSpecials_cons_plain ';' _ (by decide) (by decide)]
      simpa using ht
    · by_cases h3 : x = '>'
      · subst h3
        simp only [escCharList]
        show noRawSpecials ('&' :: 'g' :: 't' :: ';' :: t) = true
        have e1 : entityTail ('g' :: 't' :: ';' :: t) = true := by
          simp [entityTail, List.isPrefixOf]
        rw [show noRawSpecials ('&' :: 'g' :: 't' :: ';' :: t)
              = (entityTail ('g' :: 't' :: ';' :: t)
                  && noRawSpecials ('g' :: 't' :: ';' :: t)) from by
            simp [noRawSpecials]]
        rw [e1]
        rw [noRawSpecials_cons_plain 'g' _ (by decide) (by decide)]
        rw [noRawSpecials_cons_plain 't' _ (by decide) (by decide)]
        rw [noRawSpecials_cons_plain ';' _ (by decide) (by decide)]
        simpa using ht
      · by_cases h4 : x = '"'
        · subst h4
          simp only [escCharList]
          show noRawSpecials ('&' :: 'q' :: 'u' :: 'o' :: 't' :: ';' :: t) = true
          have e1 : entityTail ('q' :: 'u' :: 'o' :: 't' :: ';' :: t) = true := by
            simp [entityTail, List.isPrefixOf]
          rw [show noRawSpecials ('&' :: 'q' :: 'u' :: 'o' :: 't' :: ';' :: t)
                = (entityTail ('q' :: 'u' :: 'o' :: 't' :: ';' :: t)
                    && noRawSpecials ('q' :: 'u' :: 'o' :: 't' :: ';' :: t)) from by
              simp [noRawSpecials]]
          rw [e1]
          rw [noRawSpecials_cons_plain 'q' _ (by decide) (by decide)]
          rw [noRawSpecials_cons_plain 'u' _ (by decide) (by decide)]
          rw [noRawSpecials_cons_plain 'o' _ (by decide) (by decide)]
          rw [noRawSpecials_cons_plain 't' _ (by decide) (by decide)]
          rw [noRawSpecials_cons_plain ';' _ (by decide) (by decide)]
          simpa using ht
        · by_cases h5 : x = '\''
          · subst h5
            simp only [escCharList]
            show noRawSpecials ('&' :: '#' :: '3' :: '9' :: ';' :: t) = true
            have e1 : entityTail ('#' :: '3' :: '9' :: ';' :: t) = true := by
              simp [entityTail, List.isPrefixOf]
            rw [show noRawSpecials ('&' :: '#' :: '3' :: '9' :: ';' :: t)
                  = (entityTail ('#' :: '3' :: '9' :: ';' :: t)
                      && noRawSpecials ('#' :: '3' :: '9' :: ';' :: t)) from by
                simp [noRawSpecials]]
            rw [e1]
            rw [noRawSpecials_cons_plain '#' _ (by decide) (by decide)]
            rw [noRawSpecials_cons_plain '3' _ (by decide) (by decide)]
            rw [noRawSpecials_cons_plain '9' _ (by decide) (by decide)]
            rw [noRawSpecials_cons_plain ';' _ (by decide) (by decide)]
            simpa using ht
          · have hraw : isRawSpecial x = false := by
              simp [isRawSpecial, h2, h3, h4, h5]
            rw [escCharList_of_plain x (by simp [xmlSpecials, h1, h2, h3, h4, h5])]
            show noRawSpecials (x :: t) = true
            rw [noRawSpecials_cons_plain x t h1 hraw]
            exact ht

lemma noRawSpecials_flatten_map (l : List Char) :
    noRawSpecials ((l.map escCharList).flatten) = true := by
  induction l with
  | nil => rfl
  | cons x xs ih =>
    simp only [List.map_cons, List.flatten_cons]
    exact noRawSpecials_escCharList x _ ih

lemma entity_infix_of_mem (c : Char) (l : List Char) (h : c ∈ l) :
    escCharList c <:+: (l.map escCharList).flatten := by
  induction l with
  | nil => cases h
  | cons x xs ih =>
    simp only [List.map_cons, List.flatten_cons]
    rcases List.mem_cons.mp h with h | h
    · subst h
      exact ((escCharList c).prefix_append _).isInfix
    · exact (ih h).trans ((List.suffix_append _ _).isInfix)

lemma flatten_map_of_plain (l : List Char) (h : ∀ c ∈ l, c ∉ xmlSpecials) :
    (l.map escCharList).flatten = l := by
  induction l with
  | nil => rfl
  | cons x xs ih =>
    simp only [List.map_cons, List.flatten_cons]
    rw [escCharList_of_plain x (h x (List.mem_cons_self x xs)),
      ih (fun c hc => h c (List.mem_cons_of_mem x hc))]
    rfl

/-- C2 (confirmed): escaping replaces each occurrence of one of the five XML
metacharacters by its entity and leaves every other character untouched
(first conjunct, the per-occurrence correspondence); consequently the output
contains no raw occurrence of any of the five characters — `<`, `>`, `"`, `'`
are entirely absent and every `&` in the output is the head of an emitted
entity, never a raw character (second conjunct); the entity corresponding to
each metacharacter occurring in the input appears in the output (third
conjunct); and escaping is the identity on inputs containing none of the five
characters (fourth conjunct). -/
theorem escapeXml_spec (s : String) :
    (escapeXml s).data = (s.data.map escCharList).flatten
    ∧ noRawSpecials (escapeXml s).data = true
    ∧ (∀ c ∈ s.data, c ∈ xmlSpecials → escCharList c <:+: (escapeXml s).data)
    ∧ ((∀ c ∈ s.data, c ∉ xmlSpecials) → escapeXml s = s) := by
  refine ⟨escapeXml_data s, ?_, ?_, ?_⟩
  · rw [escapeXml_data]
    exact noRawSpecials_flatten_map s.data
  · intro c hc _
    rw [escapeXml_data]
    exact entity_infix_of_mem c s.data hc
  · intro h
    have hd : (escapeXml s).data = s.data := by
      rw [escapeXml_data]
      exact flatten_map_of_plain s.data h
    cases s with
    | mk d => exact congrArg String.mk hd

/-- Witness for C2 at concrete inputs: `"a&b<c"` contains `&` and `<`, and the
escaped output contains the entities `&amp;` and `&lt;` with no raw
metacharacter; `"xy"` contains none of the five and is returned unchanged. -/
theorem escapeXml_spec_witness :
    ('&' ∈ "a&b<c".data ∧ '&' ∈ xmlSpecials
      ∧ "&amp;".data <:+: (escapeXml "a&b<c").data)
    ∧ ('<' ∈ "a&b<c".data ∧ '<' ∈ xmlSpecials
      ∧ "&lt;".data <:+: (escapeXml "a&b<c").data)
    ∧ noRawSpecials (escapeXml "a&b<c").data = true
    ∧ ((∀ c ∈ "xy".data, c ∉ xmlSpecials) ∧ escapeXml "xy" = "xy") := by
  have hamp : escCharList '&' = "&amp;".data := by decide
  have hlt : escCharList '<' = "&lt;".data := by decide
  refine ⟨⟨by decide, by decide, ?_⟩, ⟨by decide, by decide, ?_⟩, ?_, by decide, ?_⟩
  · have h := (escapeXml_spec "a&b<c").2.2.1 '&' (by decide) (by decide)
    rwa [hamp] at h
  · have h := (escapeXml_spec "a&b<c").2.2.1 '<' (by decide) (by decide)
    rwa [hlt] at h
  · exact (escapeXml_spec "a&b<c").2.1
  · exact (escapeXml_spec "xy").2.2.2 (by decide)

/-! ## URL platform model and `UrlValidator.ts` -/

/-- A parsed URL, the model of a WHATWG `URL` object restricted to the
components this library reads and writes (`protocol`, `hostname`, `pathname`,
`search`, `hash`).  Userinfo and port are kept as part of `host`, and host
canonicalisation (lowercasing, punycode) is not modelled: no embedded code
path distinguishes those cases. -/
structure UrlObj where
  scheme : String
  host : String
  path : String
  query : Option String := none
  fragment : Option String := none
deriving DecidableEq, Repr

/-- Characters that terminate the authority component. -/
def stopChar (c : Char) : Bool :=
  c = '/' || c = '?' || c = '#'

/-- Parse the part of a URL after `scheme://`: authority up to `/`, `?` or
`#` (which must be nonempty, as WHATWG throws on an empty host for special
schemes), then path up to `?` or `#`, then query up to `#`, then fragment. -/
def parseAfterScheme (scheme : String) (l : List Char) : Option UrlObj :=
  if (l.takeWhile (fun c => !stopChar c)).isEmpty then none
  else
    match (l.dropWhile (fun c => !stopChar c)).dropWhile
        (fun c => c ≠ '?' && c ≠ '#') with
    | '?' :: r =>
      match r.dropWhile (fun c => c ≠ '#') with
      | '#' :: f =>
        some ⟨scheme, ⟨l.takeWhile (fun c => !stopChar c)⟩,
          ⟨(l.dropWhile (fun c => !stopChar c)).takeWhile
            (fun c => c ≠ '?' && c ≠ '#')⟩,
          some ⟨r.takeWhile (fun c => c ≠ '#')⟩, some ⟨f⟩⟩
      | _ =>
        some ⟨scheme, ⟨l.takeWhile (fun c => !stopChar c)⟩,
          ⟨(l.dropWhile (fun c => !stopChar c)).takeWhile
            (fun c => c ≠ '?' && c ≠ '#')⟩,
          some ⟨r.takeWhile (fun c => c ≠ '#')⟩, none⟩
    | '#' :: f =>
      some ⟨scheme, ⟨l.takeWhile (fun c => !stopChar c)⟩,
        ⟨(l.dropWhile (fun c => !stopChar c)).takeWhile
          (fun c => c ≠ '?' && c ≠ '#')⟩,
        none, some ⟨f⟩⟩
    | _ =>
      some ⟨scheme, ⟨l.takeWhile (fun c => !stopChar c)⟩,
        ⟨(l.dropWhile (fun c => !stopChar c)).takeWhile
          (fun c => c ≠ '?' && c ≠ '#')⟩,
        none, none⟩

/-- Models `new URL(s)` for absolute `http`/`https` URLs; any other input is
treated as a parse failure (`new URL` throwing).  Restricting the accepted
schemes to the two the library considers valid is observationally equivalent
for every embedded caller, since each one either combines parsing with the
`['http:', 'https:']` protocol check or is reached only for inputs that passed
it. -/
def parseUrl (s : String) : Option UrlObj :=
  match s.data with
  | 'h' :: 't' :: 't' :: 'p' :: ':' :: '/' :: '/' :: rest =>
    parseAfterScheme "http" rest
  | 'h' :: 't' :: 't' :: 'p' :: 's' :: ':' :: '/' :: '/' :: rest =>
    parseAfterScheme "https" rest
  | _ => none

/-- Models `url.toString()` on a `URL` object. -/
def serializeUrl (u : UrlObj) : String :=
  u.scheme ++ "://" ++ u.host ++ u.path
    ++ (match u.query with
        | some q => "?" ++ q
        | none => "")
    ++ (match u.fragment with
        | some f => "#" ++ f
        | none => "")

/-- `isValidUrl` (`src/validators/UrlValidator.ts` lines 799-826): the string
is nonempty, parses as a URL, has an `http`/`https` protocol and a nonempty
hostname, and is at most 2048 characters long. -/
def isValidUrl (url : String) : Bool :=
  if url = "" then false
  else
    match parseUrl url with
    | none => false
    | some u =>
      (u.scheme = "http" || u.scheme = "https") && u.host ≠ ""
        && url.length ≤ 2048

/-- `normalizeUrl` (`src/validators/UrlValidator.ts` lines 867-887): invalid
inputs are returned unchanged; valid inputs are re-parsed, their fragment is
cleared (`urlObj.hash = ''`) and an empty (or root) path is set to `/`, and
the object is serialized back. -/
def normalizeUrl (url : String) : String :=
  if !isValidUrl url then url
  else
    match parseUrl url with
    | none => url
    | some u =>
      let u1 : UrlObj := { u with fragment := none }
      let u2 : UrlObj :=
        if u1.path = "" || u1.path = "/" then { u1 with path := "/" } else u1
      serializeUrl u2

/-- Split a path/query/fragment tail (everything after the authority) into
its three components; helper for relative resolution. -/
def parsePathQueryFrag (l : List Char) : String × Option String × Option String :=
  let path := l.takeWhile (fun c => c ≠ '?' && c ≠ '#')
  match l.dropWhile (fun c => c ≠ '?' && c ≠ '#') with
  | '?' :: r =>
    let q := r.takeWhile (fun c => c ≠ '#')
    match r.dropWhile (fun c => c ≠ '#') with
    | '#' :: f => (⟨path⟩, some ⟨q⟩, some ⟨f⟩)
    | _ => (⟨path⟩, some ⟨q⟩, none)
  | '#' :: f => (⟨path⟩, none, some ⟨f⟩)
  | _ => (⟨path⟩, none, none)

/-- Dot-segment removal for merged relative paths (models the path
normalisation `new URL` applies during relative resolution): `.` segments are
dropped and `..` segments pop the previous segment. -/
def normalizeSegments : List String → List String → List String
  | stack, [] => stack.reverse
  | stack, "." :: rest => normalizeSegments stack rest
  | stack, ".." :: rest => normalizeSegments stack.tail rest
  | stack, s :: rest => normalizeSegments (s :: stack) rest

/-- Models `new URL(url, base)` for a relative `url` against an absolute
`base`: scheme-relative (`//…`), absolute-path (`/…`), query-only (`?…`),
fragment-only (`#…`) and relative-path references, with `.`/`..` segment
handling; `none` models the constructor throwing (malformed base). -/
def resolveRelative (url base : String) : Option String :=
  match parseUrl base with
  | none => none
  | some b =>
    match url.data with
    | [] => some (serializeUrl b)
    | '/' :: '/' :: rest =>
      match parseAfterScheme b.scheme rest with
      | some u => some (serializeUrl u)
      | none => none
    | '/' :: _ =>
      let pqf := parsePathQueryFrag url.data
      some (serializeUrl ⟨b.scheme, b.host, pqf.1, pqf.2.1, pqf.2.2⟩)
    | '?' :: r =>
      let q := r.takeWhile (fun c => c ≠ '#')
      let frag : Option String :=
        match r.drop q.length with
        | '#' :: f => some ⟨f⟩
        | _ => none
      some (serializeUrl ⟨b.scheme, b.host, b.path, some ⟨q⟩, frag⟩)
    | '#' :: f =>
      some (serializeUrl ⟨b.scheme, b.host, b.path, b.query, some ⟨f⟩⟩)
    | _ =>
      let pqf := parsePathQueryFrag url.data
      let baseDir := b.path.data.reverse.dropWhile (fun c => c ≠ '/')
      let merged := baseDir.reverse ++ (pqf.1 : String).data
      let segs := normalizeSegments [] (((⟨merged⟩ : String).splitOn "/").filter (· ≠ ""))
      some (serializeUrl
        ⟨b.scheme, b.host, "/" ++ String.intercalate "/" segs, pqf.2.1, pqf.2.2⟩)

/-- `resolveUrl` (`src/validators/UrlValidator.ts` lines 977-994): empty and
already-valid URLs are returned unchanged; otherwise relative resolution is
attempted and the original string is returned when it fails. -/
def resolveUrl (url baseUrl : String) : String :=
  if url = "" then url
  else if isValidUrl url then url
  else
    match resolveRelative url baseUrl with
    | some resolved => resolved
    | none => url

/-! ## Date platform model and `DateUtils.ts` -/

/-- Models the JavaScript `Date` parser (`new Date(string)`), restricted to
`YYYY-MM-DD` calendar-date strings, mapped to an encoding that is strictly
monotone in the instant denoted; every other string is treated as unparseable
(`NaN` timestamp).  The real parser accepts more formats; all date strings
appearing in this development are of this shape. -/
def jsParseDate (s : String) : Option Int :=
  match s.data with
  | [y1, y2, y3, y4, '-', m1, m2, '-', d1, d2] =>
    if y1.isDigit && y2.isDigit && y3.isDigit && y4.isDigit
        && m1.isDigit && m2.isDigit && d1.isDigit && d2.isDigit then
      let y := ((y1.toNat - 48) * 1000 + (y2.toNat - 48) * 100
        + (y3.toNat - 48) * 10 + (y4.toNat - 48))
      let m := (m1.toNat - 48) * 10 + (m2.toNat - 48)
      let d := (d1.toNat - 48) * 10 + (d2.toNat - 48)
      if 1 ≤ m && m ≤ 12 && 1 ≤ d && d ≤ 31 then
        some (((y * 12 + m) * 31 + d : Nat) : Int)
      else none
    else none
  | _ => none

/-- `isValidDate` (`src/utils/DateUtils.ts` lines 246-253): the string parses
to a non-`NaN` timestamp. -/
def isValidDate (dateString : String) : Bool :=
  (jsParseDate dateString).isSome

/-- `isValidLastModDate` (`src/utils/DateUtils.ts` lines 261-269) for string
inputs: the parsed instant is not after `now` (an unparseable date yields a
`NaN` comparison, hence `false`).  `now` is the clock reading at call time,
passed explicitly. -/
def isValidLastModDate (now : Int) (date : String) : Bool :=
  match jsParseDate date with
  | some t => t ≤ now
  | none => false

/-! ## Validation engine (`src/validators/DataValidator.ts`) -/

/-- `VALID_FREQUENCIES`. -/
def VALID_FREQUENCIES : List String :=
  ["always", "hourly", "daily", "weekly", "monthly", "yearly", "never"]

/-- `DataValidator.isValidPriority`: a finite number in `[0, 1]`.  The
`typeof`/`isNaN` guards have no counterpart for `Rat`, which carries only
finite numbers. -/
def isValidPriority (priority : Rat) : Bool :=
  decide (0 ≤ priority) && decide (priority ≤ 1)

/-- `DataValidator.isValidChangeFreq`. -/
def isValidChangeFreq (freq : String) : Bool :=
  VALID_FREQUENCIES.contains freq

/-- `DataValidator.validateImageItem` (lines 426-446). -/
def validateImageItem (image : ImageItem) : List ValidationError :=
  if image.url = "" then
    [⟨"required", "image.url", "Image URL is required"⟩]
  else if !isValidUrl image.url then
    [⟨"url", "image.url", "Image URL is not valid"⟩]
  else []

/-- `DataValidator.validateVideoItem` (lines 454-512).  `duration` is modelled
as `Int`, so the `Number.isInteger` half of the duration check is always
satisfied and only negativity can fail. -/
def validateVideoItem (video : VideoItem) : List ValidationError :=
  (if video.title = "" then
    [⟨"required", "video.title", "Video title is required"⟩]
  else [])
  ++ (if video.description = "" then
    [⟨"required", "video.description", "Video description is required"⟩]
  else [])
  ++ (if video.thumbnail_url = "" then
    [⟨"required", "video.thumbnail_url", "Video thumbnail URL is required"⟩]
  else if !isValidUrl video.thumbnail_url then
    [⟨"url", "video.thumbnail_url", "Video thumbnail URL is not valid"⟩]
  else [])
  ++ (match video.duration with
    | some d =>
      if d < 0 then
        [⟨"format", "video.duration",
          "Video duration must be a positive integer (seconds)"⟩]
      else []
    | none => [])
  ++ (match video.rating with
    | some r =>
      if r < 0 || 5 < r then
        [⟨"format", "video.rating", "Video rating must be between 0.0 and 5.0"⟩]
      else []
    | none => [])

/-- `DataValidator.validateTranslationItem` (lines 520-549). -/
def validateTranslationItem (translation : TranslationItem) : List ValidationError :=
  (if translation.language = "" then
    [⟨"required", "translation.language", "Translation language is required"⟩]
  else [])
  ++ (if translation.url = "" then
    [⟨"required", "translation.url", "Translation URL is required"⟩]
  else if !isValidUrl translation.url then
    [⟨"url", "translation.url", "Translation URL is not valid"⟩]
  else [])

/-- `DataValidator.validateAlternateItem` (lines 557-577). -/
def validateAlternateItem (alternate : AlternateItem) : List ValidationError :=
  if alternate.url = "" then
    [⟨"required", "alternate.url", "Alternate URL is required"⟩]
  else if !isValidUrl alternate.url then
    [⟨"url", "alternate.url", "Alternate URL is not valid"⟩]
  else []

/-- `DataValidator.validateGoogleNewsItem` (lines 585-623). -/
def validateGoogleNewsItem (news : GoogleNewsItem) : List ValidationError :=
  (if news.sitename = "" then
    [⟨"required", "googlenews.sitename", "Google News sitename is required"⟩]
  else [])
  ++ (if news.language = "" then
    [⟨"required", "googlenews.language", "Google News language is required"⟩]
  else [])
  ++ (if news.publication_date = "" then
    [⟨"required", "googlenews.publication_date",
      "Google News publication date is required"⟩]
  else if !isValidDate news.publication_date then
    [⟨"date", "googlenews.publication_date",
      "Google News publication date is not valid"⟩]
  else [])

/-- Prefix the field of every error in a nested-item error list with
`prefix[index].`, modelling the `field:` rewriting in `validateItem`. -/
def indexErrors (pre : String) (idx : Nat) (errs : List ValidationError) :
    List ValidationError :=
  errs.map fun e => { e with field := pre ++ "[" ++ toString idx ++ "]." ++ e.field }

/-- `DataValidator.validateItem` (lines 631-745): collects every applicable
violation — required/valid `loc`, `priority` range, `lastmod` parse and
not-in-the-future (against the clock reading `now`), `changefreq` enum, and
the nested image/video/translation/alternate/news rules with indexed field
paths. -/
def validateItem (now : Int) (item : SitemapItem) : List ValidationError :=
  (if item.loc = "" then
    [⟨"required", "loc", "URL (loc) is required"⟩]
  else if !isValidUrl item.loc then
    [⟨"url", "loc", "URL (loc) is not valid"⟩]
  else [])
  ++ (match item.priority with
    | some p =>
      if !isValidPriority p then
        [⟨"priority", "priority", "Priority must be a number between 0.0 and 1.0"⟩]
      else []
    | none => [])
  ++ (match item.lastmod with
    | some lm =>
      if !isValidDate lm then
        [⟨"date", "lastmod", "Last modification date is not valid"⟩]
      else if !isValidLastModDate now lm then
        [⟨"date", "lastmod", "Last modification date cannot be in the future"⟩]
      else []
    | none => [])
  ++ (match item.changefreq with
    | some cf =>
      if !isValidChangeFreq cf then
        [⟨"format", "changefreq",
          "Change frequency must be one of: "
            ++ String.intercalate ", " VALID_FREQUENCIES⟩]
      else []
    | none => [])
  ++ (item.images.enum.map
      (fun p => indexErrors "images" p.1 (validateImageItem p.2))).flatten
  ++ (item.videos.enum.map
      (fun p => indexErrors "videos" p.1 (validateVideoItem p.2))).flatten
  ++ (item.translations.enum.map
      (fun p => indexErrors "translations" p.1 (validateTranslationItem p.2))).flatten
  ++ (item.alternates.enum.map
      (fun p => indexErrors "alternates" p.1 (validateAlternateItem p.2))).flatten
  ++ (match item.googlenews with
    | some news => validateGoogleNewsItem news
    | none => [])

/-! ## Serializer (`src/sitemap/Sitemap.ts` lines 270-456) -/

/-- Decimal digits of the fractional part `r / d` (long division, at most
`fuel` digits). -/
def fracDigits : Nat → Nat → Nat → List Char
  | 0, _, _ => []
  | _ + 1, 0, _ => []
  | fuel + 1, r, d => Nat.digitChar (r * 10 / d) :: fracDigits fuel (r * 10 % d) d

/-- Models JavaScript template-literal number printing (`${n}`) for numbers
with a terminating decimal expansion of at most twenty digits — every
priority value exercised in this development. -/
def jsNumToString (q : Rat) : String :=
  let sign := if q < 0 then "-" else ""
  let a := |q|
  let ip := a.floor.toNat
  let fr := a - a.floor
  let digits := fracDigits 20 fr.num.toNat fr.den
  sign ++ toString ip ++ (if digits.isEmpty then "" else "." ++ ⟨digits⟩)

/-- `'  '.repeat(indent)`. -/
def indentStrOf (indent : Nat) : String :=
  String.join (List.replicate indent "  ")

/-- The image block of `renderSitemapItem` (lines 395-407).  `if (image.title)`
is a JavaScript truthiness test, so an empty-string title is skipped exactly
like an absent one; likewise for `caption`. -/
def renderImage (cfg : SitemapConfig) (ind : String) (image : ImageItem) : String :=
  ind ++ "  <image:image>\n"
  ++ ind ++ "    <image:loc>" ++ escapeXmlCfg cfg image.url ++ "</image:loc>\n"
  ++ (if image.title.getD "" ≠ "" then
      ind ++ "    <image:title>" ++ escapeXmlCfg cfg (image.title.getD "")
        ++ "</image:title>\n"
    else "")
  ++ (if image.caption.getD "" ≠ "" then
      ind ++ "    <image:caption>" ++ escapeXmlCfg cfg (image.caption.getD "")
        ++ "</image:caption>\n"
    else "")
  ++ ind ++ "  </image:image>\n"

/-- The video block of `renderSitemapItem` (lines 410-423): the thumbnail is
escaped, but title and description are spliced verbatim into `CDATA`
sections; `duration` is printed when present (an `undefined` check, not a
truthiness test). -/
def renderVideo (cfg : SitemapConfig) (ind : String) (video : VideoItem) : String :=
  ind ++ "  <video:video>\n"
  ++ ind ++ "    <video:thumbnail_loc>" ++ escapeXmlCfg cfg video.thumbnail_url
    ++ "</video:thumbnail_loc>\n"
  ++ ind ++ "    <video:title><![CDATA[" ++ video.title ++ "]]></video:title>\n"
  ++ ind ++ "    <video:description><![CDATA[" ++ video.description
    ++ "]]></video:description>\n"
  ++ (match video.duration with
    | some d => ind ++ "    <video:duration>" ++ toString d ++ "</video:duration>\n"
    | none => "")
  ++ ind ++ "  </video:video>\n"

/-- The translation link of `renderSitemapItem` (lines 426-430): the language
attribute is emitted verbatim, the href is escaped. -/
def renderTranslation (cfg : SitemapConfig) (ind : String) (trans : TranslationItem) :
    String :=
  ind ++ "  <xhtml:link rel=\"alternate\" hreflang=\"" ++ trans.language
    ++ "\" href=\"" ++ escapeXmlCfg cfg trans.url ++ "\" />\n"

/-- The alternate link of `renderSitemapItem` (lines 433-438): the media
attribute is omitted entirely when absent or empty (truthiness test). -/
def renderAlternate (cfg : SitemapConfig) (ind : String) (alt : AlternateItem) :
    String :=
  ind ++ "  <xhtml:link rel=\"alternate\""
    ++ (if alt.media.getD "" ≠ "" then " media=\"" ++ alt.media.getD "" ++ "\"" else "")
    ++ " href=\"" ++ escapeXmlCfg cfg alt.url ++ "\" />\n"

/-- The Google News block of `renderSitemapItem` (lines 441-452).
`publication_date` passes through `Sitemap.formatDate`, which returns string
inputs unchanged. -/
def renderGoogleNews (cfg : SitemapConfig) (ind : String) (news : GoogleNewsItem) :
    String :=
  ind ++ "  <news:news>\n"
  ++ ind ++ "    <news:publication>\n"
  ++ ind ++ "      <news:name>" ++ escapeXmlCfg cfg news.sitename ++ "</news:name>\n"
  ++ ind ++ "      <news:language>" ++ news.language ++ "</news:language>\n"
  ++ ind ++ "    </news:publication>\n"
  ++ ind ++ "    <news:publication_date>" ++ news.publication_date
    ++ "</news:publication_date>\n"
  ++ (if news.title.getD "" ≠ "" then
      ind ++ "    <news:title>" ++ escapeXmlCfg cfg (news.title.getD "")
        ++ "</news:title>\n"
    else "")
  ++ ind ++ "  </news:news>\n"

/-- `Sitemap.renderSitemapItem` (lines 374-456): one `<url>` entry.
`lastmod`/`changefreq` are truthiness-guarded and emitted verbatim;
`priority` is guarded by an `undefined` check and printed with JavaScript
number formatting; then the media blocks in source order. -/
def renderSitemapItem (cfg : SitemapConfig) (item : SitemapItem) (indent : Nat) :
    String :=
  let ind := indentStrOf indent
  ind ++ "<url>\n"
  ++ ind ++ "  <loc>" ++ escapeXmlCfg cfg item.loc ++ "</loc>\n"
  ++ (if item.lastmod.getD "" ≠ "" then
      ind ++ "  <lastmod>" ++ item.lastmod.getD "" ++ "</lastmod>\n"
    else "")
  ++ (if item.changefreq.getD "" ≠ "" then
      ind ++ "  <changefreq>" ++ item.changefreq.getD "" ++ "</changefreq>\n"
    else "")
  ++ (match item.priority with
    | some p => ind ++ "  <priority>" ++ jsNumToString p ++ "</priority>\n"
    | none => "")
  ++ String.join (item.images.map (renderImage cfg ind))
  ++ String.join (item.videos.map (renderVideo cfg ind))
  ++ String.join (item.translations.map (renderTranslation cfg ind))
  ++ String.join (item.alternates.map (renderAlternate cfg ind))
  ++ (match item.googlenews with
    | some news => renderGoogleNews cfg ind news
    | none => "")
  ++ ind ++ "</url>\n"

/-- `items.some(item => item.images && item.images.length > 0)` (line 288). -/
def hasImagesB (items : List SitemapItem) : Bool :=
  items.any fun item => decide (0 < item.images.length)

/-- `items.some(item => item.videos && item.videos.length > 0)` (line 289). -/
def hasVideosB (items : List SitemapItem) : Bool :=
  items.any fun item => decide (0 < item.videos.length)

/-- `items.some(item => item.translations && item.translations.length > 0)`
(line 290). -/
def hasTranslationsB (items : List SitemapItem) : Bool :=
  items.any fun item => decide (0 < item.translations.length)

/-- `items.some(item => item.alternates && item.alternates.length > 0)`
(line 291). -/
def hasAlternatesB (items : List SitemapItem) : Bool :=
  items.any fun item => decide (0 < item.alternates.length)

/-- `items.some(item => item.googlenews)` (line 292). -/
def hasGoogleNewsB (items : List SitemapItem) : Bool :=
  items.any fun item => item.googlenews.isSome

/-- The `xmlns:image` declaration (line 295). -/
def nsImageDecl : String :=
  " xmlns:image=\"http://www.google.com/schemas/sitemap-image/1.1\""

/-- The `xmlns:video` declaration (line 298). -/
def nsVideoDecl : String :=
  " xmlns:video=\"http://www.google.com/schemas/sitemap-video/1.1\""

/-- The `xmlns:xhtml` declaration (line 301). -/
def nsXhtmlDecl : String :=
  " xmlns:xhtml=\"http://www.w3.org/1999/xhtml\""

/-- The `xmlns:news` declaration (line 304). -/
def nsNewsDecl : String :=
  " xmlns:news=\"http://www.google.com/schemas/sitemap-news/0.9\""

/-- The `<urlset …>` root open tag built by `toXML` (lines 285-307): the
mandatory sitemap namespace always, then each extension namespace exactly
when the record scan finds a record using the corresponding feature. -/
def urlsetOpen (items : List SitemapItem) : String :=
  "<urlset xmlns=\"http://www.sitemaps.org/schemas/sitemap/0.9\""
  ++ (if hasImagesB items then nsImageDecl else "")
  ++ (if hasVideosB items then nsVideoDecl else "")
  ++ (if hasTranslationsB items || hasAlternatesB items then nsXhtmlDecl else "")
  ++ (if hasGoogleNewsB items then nsNewsDecl else "")
  ++ ">\n"

/-- `Sitemap.toXML` (lines 270-317): XML declaration, optional stylesheet
instruction, the root open tag with conditional namespaces, one rendered
block per record in store order, and the closing tag.  Per-call options
override the stored configuration via `??`. -/
def toXML (cfg : SitemapConfig) (items : List SitemapItem)
    (options : RenderOptions) : String :=
  let pretty := options.pretty.getD cfg.pretty
  let stylesheet := options.stylesheet.getD cfg.stylesheet
  "<?xml version=\"1.0\" encoding=\"UTF-8\"?>\n"
  ++ (if stylesheet ≠ "" then
      "<?xml-stylesheet href=\"" ++ escapeXmlCfg cfg stylesheet
        ++ "\" type=\"text/xsl\"?>\n"
    else "")
  ++ urlsetOpen items
  ++ String.join (items.map fun item =>
      renderSitemapItem cfg item (if pretty then 1 else 0))
  ++ "</urlset>"

/-- `escapeCdataSeq` models `text.replace(/]]>/g, ']]&gt;')` inside
`wrapCDATA`: a left-to-right scan rewriting every `]]>` occurrence. -/
def escapeCdataSeq : List Char → List Char
  | ']' :: ']' :: '>' :: rest =>
    ']' :: ']' :: '&' :: 'g' :: 't' :: ';' :: escapeCdataSeq rest
  | c :: rest => c :: escapeCdataSeq rest
  | [] => []

/-- `wrapCDATA` (`src/utils/XmlUtils.ts` lines 28-36): wrap in a CDATA
section, guarding embedded `]]>` terminators, when the text contains `&`,
`<`, `>` or a newline; otherwise plain escaping. -/
def wrapCDATA (text : String) : String :=
  if text.data.contains '&' || text.data.contains '<'
      || text.data.contains '>' || text.data.contains '\n' then
    "<![CDATA[" ++ (⟨escapeCdataSeq text.data⟩ : String) ++ "]]>"
  else escapeXml text

/-! ## Record store (`src/sitemap/Model.ts`) and reference semantics

To settle the defensive-copy claim the JavaScript object graph is made
explicit: arrays and record objects live on a heap and are passed by
reference.  An array object is a list of record addresses; the model instance
holds the address of its `items` array.  `[...this.items]` allocates a fresh
array object with the same element references — a shallow copy. -/

/-- The mutable object heap: array objects (lists of record addresses) and
record objects, each addressed by position. -/
structure JSHeap where
  arrays : List (List Nat)
  records : List SitemapItem
deriving Repr

/-- Read an array object. -/
def JSHeap.getArr (h : JSHeap) (a : Nat) : List Nat :=
  h.arrays.getD a []

/-- Read a record object. -/
def JSHeap.getRec (h : JSHeap) (r : Nat) : SitemapItem :=
  h.records.getD r default

/-- In-place mutation of an array object (e.g. `push`, `splice`, index
assignment performed by the caller on a returned collection). -/
def JSHeap.setArr (h : JSHeap) (a : Nat) (l : List Nat) : JSHeap :=
  { h with arrays := h.arrays.set a l }

/-- In-place mutation of a record object's fields (e.g. `items[0].loc = …`
performed by the caller on a record inside a returned collection). -/
def JSHeap.setRec (h : JSHeap) (r : Nat) (v : SitemapItem) : JSHeap :=
  { h with records := h.records.set r v }

/-- A `Model` instance: the address of its private `items` array. -/
structure ModelRef where
  itemsArr : Nat
deriving Repr

/-- `Model.getItems` (`src/sitemap/Model.ts` lines 59-61): `[...this.items]`
allocates a fresh array object holding the same record references and returns
its address.  `Sitemap.getItems` (lines 147-149) returns this unchanged. -/
def Model.getItems (h : JSHeap) (m : ModelRef) : JSHeap × Nat :=
  ({ h with arrays := h.arrays ++ [h.getArr m.itemsArr] }, h.arrays.length)

/-- The record sequence the store itself observes: what a subsequent
`getItems`, `getItemCount` or `toXML` dereferences. -/
def Model.observedItems (h : JSHeap) (m : ModelRef) : List SitemapItem :=
  (h.getArr m.itemsArr).map h.getRec

/-- `Model.shouldSplit` (`src/sitemap/Model.ts` lines 138-140):
`items.length >= config.maxItems`. -/
def Model.shouldSplit (cfg : SitemapConfig) (items : List SitemapItem) : Bool :=
  decide (cfg.maxItems ≤ items.length)

/-! ## Store mutation (`src/sitemap/Sitemap.ts` lines 52-140) -/

/-- Join an error list into the aggregated message text
(`errors.map(e => field + ': ' + message).join(', ')`). -/
def joinErrors (errors : List ValidationError) : String :=
  String.intercalate ", " (errors.map fun e => e.field ++ ": " ++ e.message)

/-- The URL normalisation-and-resolution step shared by `add` and `addItem`
(lines 61-65 and 110-114): normalize, then resolve against the configured
base only when a base is configured and the normalised URL is not already
valid. -/
def normalizeResolve (cfg : SitemapConfig) (url : String) : String :=
  let normalizedUrl := normalizeUrl url
  if cfg.baseUrl ≠ "" && !isValidUrl normalizedUrl then resolveUrl url cfg.baseUrl
  else normalizedUrl

/-- `SitemapAddOptions` (`src/types/SitemapTypes.ts`): the extras accepted by
`add`. -/
structure SitemapAddOptions where
  images : List ImageItem := []
  videos : List VideoItem := []
  translations : List TranslationItem := []
  alternates : List AlternateItem := []
  googlenews : Option GoogleNewsItem := none
  title : Option String := none
deriving DecidableEq, Repr

/-- The record `Sitemap.add` builds from its positional arguments and options
(lines 59-84, `{ loc: normalizedUrl, ...options }` plus the conditionally
assigned fields).  A `Date`-typed `lastmod` is coerced to its ISO string by
the source before storage; the string form is modelled. -/
def buildAddItem (cfg : SitemapConfig) (url : String) (lastmod : Option String)
    (priority : Option Rat) (changefreq : Option String)
    (options : SitemapAddOptions) : SitemapItem :=
  { loc := normalizeResolve cfg url
    lastmod := lastmod
    priority := priority
    changefreq := changefreq
    title := options.title
    images := options.images
    videos := options.videos
    translations := options.translations
    alternates := options.alternates
    googlenews := options.googlenews }

/-- `Sitemap.add` (lines 52-97) in state-passing form: build the record,
validate it when validation is enabled, and either throw the aggregated
`Validation failed` message — leaving the record list exactly as it was — or
append the record.  `now` is the clock reading used by the lastmod rule. -/
def Sitemap.add (now : Int) (cfg : SitemapConfig) (items : List SitemapItem)
    (url : String) (lastmod : Option String) (priority : Option Rat)
    (changefreq : Option String) (options : SitemapAddOptions) :
    List SitemapItem × Option String :=
  let item := buildAddItem cfg url lastmod priority changefreq options
  if cfg.validate then
    let errors := validateItem now item
    if errors.length > 0 then
      (items, some ("Validation failed: " ++ joinErrors errors))
    else (items ++ [item], none)
  else (items ++ [item], none)

/-- The per-record processing step of `Sitemap.addItem` (lines 110-125):
normalize/resolve the location and keep every other field. -/
def processItem (cfg : SitemapConfig) (item : SitemapItem) : SitemapItem :=
  { item with loc := normalizeResolve cfg item.loc }

/-- `Sitemap.addItem` (lines 105-140) in state-passing form: records are
processed one at a time in batch order; each is appended after it validates,
and the first validation failure throws `Validation failed for <loc>: …`,
leaving the records already appended in place and processing no further
records. -/
def Sitemap.addItem (now : Int) (cfg : SitemapConfig) (items : List SitemapItem) :
    List SitemapItem → List SitemapItem × Option String
  | [] => (items, none)
  | item :: rest =>
    let processedItem := processItem cfg item
    if cfg.validate then
      let errors := validateItem now processedItem
      if errors.length > 0 then
        (items, some ("Validation failed for " ++ processedItem.loc ++ ": "
          ++ joinErrors errors))
      else Sitemap.addItem now cfg (items ++ [processedItem]) rest
    else Sitemap.addItem now cfg (items ++ [processedItem]) rest

/-! ## Index store (`src/sitemap/SitemapIndex.ts`) -/

/-- `SitemapIndex.validateSitemapItem` (lines 801-837): the location must be
a valid URL; a (truthy) `lastmod` must parse as a date. -/
def validateSitemapItem (item : SitemapIndexItem) : List ValidationError :=
  (if !isValidUrl item.loc then
    [⟨"url", "loc", "Invalid URL format"⟩]
  else [])
  ++ (match item.lastmod with
    | some lm =>
      if lm ≠ "" && !isValidDate lm then
        [⟨"date", "lastmod", "Invalid date format"⟩]
      else []
    | none => [])

/-- The index record `addSitemap` builds (lines 546-559). -/
def buildIndexItem (cfg : SitemapIndexConfig) (loc : String)
    (lastmod : Option String) : SitemapIndexItem :=
  { loc :=
      let normalizedUrl := normalizeUrl loc
      if cfg.baseUrl ≠ "" && !isValidUrl normalizedUrl then
        resolveUrl loc cfg.baseUrl
      else normalizedUrl
    lastmod := lastmod }

/-- The `Maximum number of sitemaps … exceeded` message (line 572). -/
def limitExceededMsg (cfg : SitemapIndexConfig) : String :=
  "Maximum number of sitemaps (" ++ toString cfg.maxSitemaps ++ ") exceeded"

/-- `SitemapIndex.addSitemap` (lines 546-577) in state-passing form: build
the record, throw the aggregated validation message when validation is
enabled and fails, then throw `LimitExceeded` when the stored count has
reached `maxSitemaps`, and only otherwise append. -/
def SitemapIndex.addSitemap (cfg : SitemapIndexConfig)
    (items : List SitemapIndexItem) (loc : String) (lastmod : Option String) :
    List SitemapIndexItem × Option String :=
  if cfg.validate
      && (validateSitemapItem (buildIndexItem cfg loc lastmod)).length > 0 then
    (items, some ("Validation failed: "
      ++ joinErrors (validateSitemapItem (buildIndexItem cfg loc lastmod))))
  else if cfg.maxSitemaps ≤ items.length then
    (items, some (limitExceededMsg cfg))
  else (items ++ [buildIndexItem cfg loc lastmod], none)

/-- `SitemapIndex.addSitemaps` (lines 585-590): `addSitemap` for each batch
element in order; a throw aborts the loop with the state reached so far. -/
def SitemapIndex.addSitemaps (cfg : SitemapIndexConfig)
    (items : List SitemapIndexItem) :
    List SitemapIndexItem → List SitemapIndexItem × Option String
  | [] => (items, none)
  | b :: rest =>
    match SitemapIndex.addSitemap cfg items b.loc b.lastmod with
    | (items2, none) => SitemapIndex.addSitemaps cfg items2 rest
    | (items2, some e) => (items2, some e)

/-- `SitemapIndex.resetSitemaps` (lines 637-641): clear, then re-add the
given batch through the guarded `addSitemaps` pipeline. -/
def SitemapIndex.resetSitemaps (cfg : SitemapIndexConfig)
    (sitemaps : List SitemapIndexItem) : List SitemapIndexItem × Option String :=
  SitemapIndex.addSitemaps cfg [] sitemaps

/-- One public mutation of the index store's item list. -/
inductive IndexOp where
  | addSitemap (loc : String) (lastmod : Option String)
  | addSitemaps (batch : List SitemapIndexItem)
  | resetSitemaps (batch : List SitemapIndexItem)
  | removeSitemaps (p : SitemapIndexItem → Bool)
  | clear

/-- Run one operation, returning the item list it leaves behind (exceptions
never roll the reached state back, matching the source's in-place
mutations). -/
def runIndexOp (cfg : SitemapIndexConfig) (items : List SitemapIndexItem) :
    IndexOp → List SitemapIndexItem
  | IndexOp.addSitemap loc lastmod =>
    (SitemapIndex.addSitemap cfg items loc lastmod).1
  | IndexOp.addSitemaps batch => (SitemapIndex.addSitemaps cfg items batch).1
  | IndexOp.resetSitemaps batch => (SitemapIndex.resetSitemaps cfg batch).1
  | IndexOp.removeSitemaps p => items.filter fun i => !p i
  | IndexOp.clear => []

/-- Run a sequence of operations, in order, from the freshly-constructed
(empty) store. -/
def runIndexOps (cfg : SitemapIndexConfig) (ops : List IndexOp) :
    List SitemapIndexItem :=
  ops.foldl (runIndexOp cfg) []

/-! ## Theorems -/

/-- C5 (confirmed): rendering a store with zero records under the default
configuration (no stylesheet, compact mode) produces exactly the XML
declaration followed by the empty `<urlset …></urlset>` open/close pair, with
no per-entry content between them (only the newlines that separate the three
tags). -/
theorem toXML_empty_store :
    toXML {} [] {} =
      "<?xml version=\"1.0\" encoding=\"UTF-8\"?>\n<urlset xmlns=\"http://www.sitemaps.org/schemas/sitemap/0.9\">\n</urlset>" := by
  rfl

/-- C7 (confirmed): `shouldSplit` is false for every stored-record count
strictly below the configured max-items threshold (in particular at
`maxItems - 1`) and true at the threshold and above (in particular at exactly
`maxItems`); the default threshold is 50000. -/
theorem shouldSplit_boundary (cfg : SitemapConfig) (items : List SitemapItem) :
    (items.length < cfg.maxItems → Model.shouldSplit cfg items = false)
    ∧ (cfg.maxItems ≤ items.length → Model.shouldSplit cfg items = true)
    ∧ SitemapConfig.maxItems {} = 50000 := by
  refine ⟨fun h => ?_, fun h => ?_, rfl⟩
  · simp only [Model.shouldSplit, decide_eq_false_iff_not]
    omega
  · simp only [Model.shouldSplit, decide_eq_true_eq]
    exact h

/-- Witness for C7 at the boundary: with `maxItems = 3`, a store holding two
records does not split and a store holding three does. -/
theorem shouldSplit_boundary_witness :
    Model.shouldSplit { maxItems := 3 } (List.replicate 2 default) = false
    ∧ Model.shouldSplit { maxItems := 3 } (List.replicate 3 default) = true := by
  constructor
  · exact (shouldSplit_boundary { maxItems := 3 } (List.replicate 2 default)).1
      (by simp)
  · exact (shouldSplit_boundary { maxItems := 3 } (List.replicate 3 default)).2.1
      (by simp)

/-- C4 (confirmed): with validation enabled, a single-record `add` whose built
record fails at least one validation rule throws the `Validation failed`
error aggregating every error message, and leaves the record list — hence the
record count and every subsequent read or render — exactly as it was: the
failing record is never appended. -/
theorem add_validation_failure (now : Int) (cfg : SitemapConfig)
    (items : List SitemapItem) (url : String) (lastmod : Option String)
    (priority : Option Rat) (changefreq : Option String)
    (options : SitemapAddOptions)
    (hv : cfg.validate = true)
    (hf : validateItem now (buildAddItem cfg url lastmod priority changefreq options)
      ≠ []) :
    Sitemap.add now cfg items url lastmod priority changefreq options
      = (items, some ("Validation failed: "
          ++ joinErrors (validateItem now
            (buildAddItem cfg url lastmod priority changefreq options)))) := by
  have hlen : 0 <
      (validateItem now (buildAddItem cfg url lastmod priority changefreq options)).length :=
    List.length_pos.mpr hf
  simp only [Sitemap.add, hv, if_true, gt_iff_lt, hlen, if_pos]

/-- Witness for C4: adding a record with an out-of-range priority to an empty
default store throws the aggregated message and stores nothing. -/
theorem add_validation_failure_witness :
    validateItem 0 (buildAddItem {} "http://example.com/x" none (some 2) none {}) ≠ []
    ∧ Sitemap.add 0 {} [] "http://example.com/x" none (some 2) none {}
      = ([], some "Validation failed: priority: Priority must be a number between 0.0 and 1.0") := by
  refine ⟨by decide, ?_⟩
  have h := add_validation_failure 0 {} [] "http://example.com/x" none (some 2) none {}
    rfl (by decide)
  rw [h]
  rfl

/-! ### C1: the shallow copy returned by `getItems` -/

/-- A concrete heap: the store's `items` array is object 0 and holds a
reference to record object 0. -/
def c1Heap : JSHeap :=
  { arrays := [[0]], records := [{ loc := "http://example.com/a" }] }

/-- The store instance for the C1 scenario. -/
def c1Model : ModelRef := ⟨0⟩

/-- The caller's in-place update of the record it received. -/
def c1Mutated : SitemapItem := { loc := "http://example.com/CHANGED" }

/-- Counterexample to C1 as stated: `getItems` returns a shallow copy, so the
record objects in the returned collection are the store's own record objects.
The returned array (object 1) contains record reference 0; mutating that
record in place changes what the store's subsequent `getItems`/`render`
observes, so "any external mutation of the returned collection (including
mutation of the records it contains) leaves the store's internal state
unchanged" is false. -/
theorem getItems_not_deep_copy :
    ((Model.getItems c1Heap c1Model).1.getArr (Model.getItems c1Heap c1Model).2
      = [0])
    ∧ Model.observedItems
      (JSHeap.setRec (Model.getItems c1Heap c1Model).1 0 c1Mutated) c1Model
      ≠ Model.observedItems c1Heap c1Model := by
  constructor
  · rfl
  · decide

/-- C1 amended (proved): `getItems` returns a defensive copy of the
*collection*: a freshly allocated array object, distinct from the store's
internal array.  Mutating the returned collection itself — replacing its
contents by any list `l` of references, which covers push/splice/index
assignment — leaves the store's internal array, and hence what any subsequent
`getItems`/`getItemCount`/`toXML` observes, unchanged.  (Per the
counterexample, this does not extend to mutating the record objects the copy
shares with the store.) -/
theorem getItems_shallow_copy_safe (h : JSHeap) (m : ModelRef) (l : List Nat)
    (hm : m.itemsArr < h.arrays.length) :
    (Model.getItems h m).2 ≠ m.itemsArr
    ∧ Model.observedItems
        (JSHeap.setArr (Model.getItems h m).1 (Model.getItems h m).2 l) m
      = Model.observedItems h m := by
  have hne : h.arrays.length ≠ m.itemsArr := by omega
  constructor
  · exact hne
  · unfold Model.observedItems Model.getItems JSHeap.setArr JSHeap.getArr JSHeap.getRec
    simp only
    have harr :
        (((h.arrays ++ [h.arrays.getD m.itemsArr []]).set h.arrays.length l).getD
          m.itemsArr []) = h.arrays.getD m.itemsArr [] := by
      simp [List.getD, List.getElem?_set_ne (Ne.symm hne), List.getElem?_append_left hm]
    rw [harr]

/-- Witness for C1 amended, at the concrete C1 heap: the fresh array is
object 1, and emptying the returned collection leaves the store's observed
records untouched. -/
theorem getItems_shallow_copy_safe_witness :
    (Model.getItems c1Heap c1Model).2 ≠ c1Model.itemsArr
    ∧ Model.observedItems
        (JSHeap.setArr (Model.getItems c1Heap c1Model).1
          (Model.getItems c1Heap c1Model).2 []) c1Model
      = Model.observedItems c1Heap c1Model := by
  exact getItems_shallow_copy_safe c1Heap c1Model [] (by decide)

/-! ### C9: the index store never exceeds `maxSitemaps` -/

lemma addSitemap_length_le (cfg : SitemapIndexConfig)
    (items : List SitemapIndexItem) (loc : String) (lastmod : Option String)
    (h : items.length ≤ cfg.maxSitemaps) :
    (SitemapIndex.addSitemap cfg items loc lastmod).1.length ≤ cfg.maxSitemaps := by
  unfold SitemapIndex.addSitemap
  split
  · exact h
  · split
    · exact h
    · rename_i hlim
      simp only [List.length_append, List.length_cons, List.length_nil]
      omega

lemma addSitemaps_length_le (cfg : SitemapIndexConfig)
    (batch : List SitemapIndexItem) :
    ∀ items : List SitemapIndexItem, items.length ≤ cfg.maxSitemaps →
      (SitemapIndex.addSitemaps cfg items batch).1.length ≤ cfg.maxSitemaps := by
  induction batch with
  | nil => intro items h; exact h
  | cons b rest ih =>
    intro items h
    unfold SitemapIndex.addSitemaps
    have hb := addSitemap_length_le cfg items b.loc b.lastmod h
    rcases hadd : SitemapIndex.addSitemap cfg items b.loc b.lastmod with ⟨items2, err⟩
    rw [hadd] at hb
    cases err with
    | none => simpa using ih items2 hb
    | some e => simpa using hb

lemma runIndexOp_length_le (cfg : SitemapIndexConfig)
    (items : List SitemapIndexItem) (op : IndexOp)
    (h : items.length ≤ cfg.maxSitemaps) :
    (runIndexOp cfg items op).length ≤ cfg.maxSitemaps := by
  cases op with
  | addSitemap loc lastmod => exact addSitemap_length_le cfg items loc lastmod h
  | addSitemaps batch => exact addSitemaps_length_le cfg batch items h
  | resetSitemaps batch =>
    exact addSitemaps_length_le cfg batch [] (by simp)
  | removeSitemaps p =>
    exact le_trans (List.length_filter_le _ items) h
  | clear => exact Nat.zero_le _

lemma foldl_runIndexOp_length_le (cfg : SitemapIndexConfig) (ops : List IndexOp) :
    ∀ items : List SitemapIndexItem, items.length ≤ cfg.maxSitemaps →
      (ops.foldl (runIndexOp cfg) items).length ≤ cfg.maxSitemaps := by
  induction ops with
  | nil => intro items h; exact h
  | cons op rest ih =>
    intro items h
    exact ih _ (runIndexOp_length_le cfg items op h)

/-- C9 (confirmed): for an index store whose configuration is fixed at
construction, the stored sitemap count never exceeds `maxSitemaps` after any
sequence of `addSitemap`/`addSitemaps`/`resetSitemaps`/`removeSitemaps`/
`clear` operations run from the freshly-constructed (empty) store; moreover,
once the count has reached `maxSitemaps`, `addSitemap` leaves the item list
unchanged and throws — the limit error whenever the record passes validation
(or validation is disabled). -/
theorem sitemapIndex_count_invariant (cfg : SitemapIndexConfig)
    (ops : List IndexOp) (items : List SitemapIndexItem)
    (loc : String) (lastmod : Option String)
    (hfull : cfg.maxSitemaps ≤ items.length) :
    (runIndexOps cfg ops).length ≤ cfg.maxSitemaps
    ∧ (SitemapIndex.addSitemap cfg items loc lastmod).1 = items
    ∧ (SitemapIndex.addSitemap cfg items loc lastmod).2.isSome = true
    ∧ ((cfg.validate = false ∨ validateSitemapItem (buildIndexItem cfg loc lastmod) = []) →
        (SitemapIndex.addSitemap cfg items loc lastmod).2
          = some (limitExceededMsg cfg)) := by
  have hmain := foldl_runIndexOp_length_le cfg ops [] (by simp)
  refine ⟨hmain, ?_, ?_, ?_⟩
  · unfold SitemapIndex.addSitemap
    split
    · rfl
    · rfl
  · unfold SitemapIndex.addSitemap
    split
    · rfl
    · rfl
  · intro hok
    unfold SitemapIndex.addSitemap
    have hcond :
        ¬ ((cfg.validate
          && decide
            ((validateSitemapItem (buildIndexItem cfg loc lastmod)).length > 0))
          = true) := by
      rcases hok with hok | hok
      · simp [hok]
      · simp [hok]
    rw [if_neg hcond, if_pos hfull]

/-- Witness for C9: with `maxSitemaps = 1`, adding two valid sitemap URLs
keeps the count at one, and `addSitemap` on the full store reports the limit
error without storing. -/
theorem sitemapIndex_count_invariant_witness :
    (runIndexOps { maxSitemaps := 1 }
      [IndexOp.addSitemap "http://example.com/s1.xml" none,
       IndexOp.addSitemap "http://example.com/s2.xml" none]).length ≤ 1
    ∧ (SitemapIndex.addSitemap { maxSitemaps := 1 }
        [{ loc := "http://example.com/s1.xml" }] "http://example.com/s2.xml" none).1
      = [{ loc := "http://example.com/s1.xml" }]
    ∧ (SitemapIndex.addSitemap { maxSitemaps := 1 }
        [{ loc := "http://example.com/s1.xml" }] "http://example.com/s2.xml" none).2
      = some (limitExceededMsg { maxSitemaps := 1 }) := by
  have h := sitemapIndex_count_invariant { maxSitemaps := 1 }
    [IndexOp.addSitemap "http://example.com/s1.xml" none,
     IndexOp.addSitemap "http://example.com/s2.xml" none]
    [{ loc := "http://example.com/s1.xml" }] "http://example.com/s2.xml" none
    (by decide)
  exact ⟨h.1, h.2.1, h.2.2.2 (Or.inr (by decide))⟩

/-! ### C6: sequential batch insertion, failing fast without rollback -/

/-- C6 (confirmed): with validation enabled, a batch whose records validate
up to some position and whose next record fails validation is processed
sequentially: every record before the failing one is already stored (in batch
order, after URL processing — no rollback happens), the operation throws the
error naming the failing record's processed location together with its
errors, and neither the failing record nor any record after it is stored. -/
theorem addItem_batch_first_failure (now : Int) (cfg : SitemapConfig)
    (items pre post : List SitemapItem) (bad : SitemapItem)
    (hv : cfg.validate = true)
    (hpre : ∀ p ∈ pre, validateItem now (processItem cfg p) = [])
    (hbad : validateItem now (processItem cfg bad) ≠ []) :
    Sitemap.addItem now cfg items (pre ++ bad :: post)
      = (items ++ pre.map (processItem cfg),
        some ("Validation failed for " ++ (processItem cfg bad).loc ++ ": "
          ++ joinErrors (validateItem now (processItem cfg bad)))) := by
  induction pre generalizing items with
  | nil =>
    have hlen : 0 < (validateItem now (processItem cfg bad)).length :=
      List.length_pos.mpr hbad
    simp only [List.nil_append, List.map_nil, List.append_nil, Sitemap.addItem,
      hv, if_true, gt_iff_lt, hlen, if_pos]
  | cons p ps ih =>
    have hp : validateItem now (processItem cfg p) = [] :=
      hpre p (List.mem_cons_self p ps)
    have hrest : ∀ q ∈ ps, validateItem now (processItem cfg q) = [] :=
      fun q hq => hpre q (List.mem_cons_of_mem p hq)
    simp only [List.cons_append, Sitemap.addItem, hv, if_true, hp,
      List.length_nil, gt_iff_lt, Nat.lt_irrefl, if_false, List.append_eq]
    rw [ih (items ++ [processItem cfg p]) hrest]
    simp [List.append_assoc]

/-- Witness for C6: a two-record batch whose first record is valid and whose
second has an invalid location stores exactly the first record and throws
naming the second. -/
theorem addItem_batch_first_failure_witness :
    Sitemap.addItem 0 {} [] [{ loc := "http://example.com/a" }, { loc := "bad" }]
      = ([{ loc := "http://example.com/a" }],
        some "Validation failed for bad: loc: URL (loc) is not valid") := by
  have h := addItem_batch_first_failure 0 {} [] [{ loc := "http://example.com/a" }]
    [] { loc := "bad" } rfl (by decide) (by decide)
  rw [show ([{ loc := "http://example.com/a" }]
        ++ ({ loc := "bad" } : SitemapItem) :: [])
      = [{ loc := "http://example.com/a" }, { loc := "bad" }] from rfl] at h
  rw [h]
  rfl

/-! ### C3: conditional extension namespaces -/

/-- Number of (possibly overlapping) occurrences of `pat` as a contiguous
substring. -/
def countOccur (pat : List Char) : List Char → Nat
  | [] => 0
  | c :: rest => (if pat.isPrefixOf (c :: rest) then 1 else 0) + countOccur pat rest

set_option maxRecDepth 4096 in
/-- C3 (confirmed): every XML render consists of a preamble, the root open
tag `urlsetOpen items`, the per-record blocks, and the closing tag; and in
that root open tag each of the four extension namespace declarations occurs
exactly once when at least one stored record uses the corresponding feature
(images, videos, translations-or-alternates for `xhtml`, news) and does not
occur at all otherwise.  In particular a store with one image-bearing record
renders `xmlns:image`, and a store with zero video-bearing records never
renders `xmlns:video` in its root tag. -/
theorem toXML_namespace_declarations (cfg : SitemapConfig)
    (items : List SitemapItem) (options : RenderOptions) :
    (∃ pre, toXML cfg items options
      = pre ++ urlsetOpen items
        ++ String.join (items.map fun item =>
            renderSitemapItem cfg item
              (if options.pretty.getD cfg.pretty then 1 else 0))
        ++ "</urlset>")
    ∧ countOccur nsImageDecl.data (urlsetOpen items).data
      = (if hasImagesB items then 1 else 0)
    ∧ countOccur nsVideoDecl.data (urlsetOpen items).data
      = (if hasVideosB items then 1 else 0)
    ∧ countOccur nsXhtmlDecl.data (urlsetOpen items).data
      = (if hasTranslationsB items || hasAlternatesB items then 1 else 0)
    ∧ countOccur nsNewsDecl.data (urlsetOpen items).data
      = (if hasGoogleNewsB items then 1 else 0) := by
  refine ⟨⟨"<?xml version=\"1.0\" encoding=\"UTF-8\"?>\n"
    ++ (if options.stylesheet.getD cfg.stylesheet ≠ "" then
        "<?xml-stylesheet href=\""
          ++ escapeXmlCfg cfg (options.stylesheet.getD cfg.stylesheet)
          ++ "\" type=\"text/xsl\"?>\n"
      else ""), rfl⟩, ?_⟩
  cases hI : hasImagesB items <;> cases hV : hasVideosB items <;>
    cases hX : (hasTranslationsB items || hasAlternatesB items) <;>
      cases hN : hasGoogleNewsB items <;>
        simp only [urlsetOpen, hI, hV, hX, hN, if_true, if_false,
          Bool.false_eq_true, Bool.true_eq_false] <;>
          exact ⟨by decide, by decide, by decide, by decide⟩

/-! ### C10: video title/description pass through CDATA unguarded -/

lemma infix_flatten_of_mem {α : Type} (x : List α) (m : List (List α))
    (h : x ∈ m) : x <:+: m.flatten := by
  induction m with
  | nil => cases h
  | cons a as ih =>
    rw [List.flatten_cons]
    rcases List.mem_cons.mp h with h | h
    · subst h
      exact (x.prefix_append _).isInfix
    · exact (ih h).trans (List.suffix_append _ _).isInfix

lemma join_foldl_data (l : List String) :
    ∀ acc : String, (l.foldl (· ++ ·) acc).data
      = acc.data ++ (l.map String.data).flatten := by
  induction l with
  | nil => intro acc; simp
  | cons s rest ih =>
    intro acc
    simp only [List.foldl_cons, ih, List.map_cons, List.flatten_cons,
      String.data_append, List.append_assoc]

lemma join_data (l : List String) :
    (String.join l).data = (l.map String.data).flatten := by
  have h := join_foldl_data l ""
  simpa [String.join] using h

set_option maxRecDepth 8192 in
lemma renderVideo_title_decomp (cfg : SitemapConfig) (ind : String)
    (v : VideoItem) :
    ("<video:title><![CDATA[" ++ v.title ++ "]]></video:title>").data
      <:+: (renderVideo cfg ind v).data := by
  refine ⟨(ind ++ "  <video:video>\n" ++ ind ++ "    <video:thumbnail_loc>"
      ++ escapeXmlCfg cfg v.thumbnail_url ++ "</video:thumbnail_loc>\n"
      ++ ind ++ "    ").data,
    ("\n" ++ ind ++ "    <video:description><![CDATA[" ++ v.description
      ++ "]]></video:description>\n"
      ++ (match v.duration with
        | some d =>
          ind ++ "    <video:duration>" ++ toString d ++ "</video:duration>\n"
        | none => "")
      ++ ind ++ "  </video:video>\n").data, ?_⟩
  simp only [renderVideo, String.data_append, List.append_assoc,
    List.cons_append, List.nil_append]

set_option maxRecDepth 8192 in
lemma renderVideo_description_decomp (cfg : SitemapConfig) (ind : String)
    (v : VideoItem) :
    ("<video:description><![CDATA[" ++ v.description
      ++ "]]></video:description>").data
      <:+: (renderVideo cfg ind v).data := by
  refine ⟨(ind ++ "  <video:video>\n" ++ ind ++ "    <video:thumbnail_loc>"
      ++ escapeXmlCfg cfg v.thumbnail_url ++ "</video:thumbnail_loc>\n"
      ++ ind ++ "    <video:title><![CDATA[" ++ v.title ++ "]]></video:title>\n"
      ++ ind ++ "    ").data,
    ("\n"
      ++ (match v.duration with
        | some d =>
          ind ++ "    <video:duration>" ++ toString d ++ "</video:duration>\n"
        | none => "")
      ++ ind ++ "  </video:video>\n").data, ?_⟩
  simp only [renderVideo, String.data_append, List.append_assoc,
    List.cons_append, List.nil_append]

lemma renderVideo_infix_renderSitemapItem (cfg : SitemapConfig)
    (item : SitemapItem) (indent : Nat) (v : VideoItem)
    (hv : v ∈ item.videos) :
    (renderVideo cfg (indentStrOf indent) v).data
      <:+: (renderSitemapItem cfg item indent).data := by
  have hjoin : (renderVideo cfg (indentStrOf indent) v).data
      <:+: (String.join (item.videos.map (renderVideo cfg (indentStrOf indent)))).data := by
    rw [join_data, List.map_map]
    exact infix_flatten_of_mem _ _ (List.mem_map_of_mem _ hv)
  obtain ⟨s, t, hst⟩ := hjoin
  refine ⟨(indentStrOf indent ++ "<url>\n" ++ indentStrOf indent ++ "  <loc>"
      ++ escapeXmlCfg cfg item.loc ++ "</loc>\n"
      ++ (if item.lastmod.getD "" ≠ "" then
          indentStrOf indent ++ "  <lastmod>" ++ item.lastmod.getD ""
            ++ "</lastmod>\n"
        else "")
      ++ (if item.changefreq.getD "" ≠ "" then
          indentStrOf indent ++ "  <changefreq>" ++ item.changefreq.getD ""
            ++ "</changefreq>\n"
        else "")
      ++ (match item.priority with
        | some p =>
          indentStrOf indent ++ "  <priority>" ++ jsNumToString p
            ++ "</priority>\n"
        | none => "")
      ++ String.join (item.images.map (renderImage cfg (indentStrOf indent)))).data
      ++ s,
    t ++ (String.join
        (item.translations.map (renderTranslation cfg (indentStrOf indent)))
      ++ String.join
        (item.alternates.map (renderAlternate cfg (indentStrOf indent)))
      ++ (match item.googlenews with
        | some news => renderGoogleNews cfg (indentStrOf indent) news
        | none => "")
      ++ indentStrOf indent ++ "</url>\n").data, ?_⟩
  simp only [renderSitemapItem, String.data_append, List.append_assoc]
  rw [← hst]
  simp [List.append_assoc]

/-- The C10 video: its title contains the CDATA terminator `]]>`. -/
def c10video : VideoItem :=
  { title := "a]]>b", description := "d",
    thumbnail_url := "http://example.com/t.jpg" }

/-- The C10 record carrying that video. -/
def c10item : SitemapItem :=
  { loc := "http://example.com/v", videos := [c10video] }

set_option maxRecDepth 8192 in
/-- C10 (confirmed): the serializer splices every video title and description
verbatim into `<![CDATA[…]]>` with no escaping (first two conjuncts, for any
record and configuration); for the concrete video whose title contains
`]]>`, the rendered entry contains `<![CDATA[a]]>b]]>` — the terminator
appears raw inside the CDATA section (third conjunct); the `wrapCDATA`
utility would instead have produced `<![CDATA[a]]&gt;b]]>` (fourth conjunct),
and its guarded output `]]&gt;` appears nowhere in the rendered entry, so the
serializer never invokes it (fifth conjunct). -/
theorem video_cdata_raw_terminator :
    (∀ (cfg : SitemapConfig) (item : SitemapItem) (indent : Nat) (v : VideoItem),
      v ∈ item.videos →
        ("<video:title><![CDATA[" ++ v.title ++ "]]></video:title>").data
          <:+: (renderSitemapItem cfg item indent).data)
    ∧ (∀ (cfg : SitemapConfig) (item : SitemapItem) (indent : Nat) (v : VideoItem),
      v ∈ item.videos →
        ("<video:description><![CDATA[" ++ v.description
          ++ "]]></video:description>").data
          <:+: (renderSitemapItem cfg item indent).data)
    ∧ "<![CDATA[a]]>b]]>".data <:+: (renderSitemapItem {} c10item 0).data
    ∧ wrapCDATA "a]]>b" = "<![CDATA[a]]&gt;b]]>"
    ∧ ¬ ("]]&gt;".data <:+: (renderSitemapItem {} c10item 0).data) := by
  refine ⟨?_, ?_, by decide, by decide, by decide⟩
  · intro cfg item indent v hv
    exact (renderVideo_title_decomp cfg (indentStrOf indent) v).trans
      (renderVideo_infix_renderSitemapItem cfg item indent v hv)
  · intro cfg item indent v hv
    exact (renderVideo_description_decomp cfg (indentStrOf indent) v).trans
      (renderVideo_infix_renderSitemapItem cfg item indent v hv)

set_option maxRecDepth 8192 in
/-- Witness for C10: applying the verbatim-splice property to the concrete
record whose video title is `a]]>b`. -/
theorem video_cdata_raw_terminator_witness :
    c10video ∈ c10item.videos
    ∧ ("<video:title><![CDATA[" ++ c10video.title ++ "]]></video:title>").data
      <:+: (renderSitemapItem {} c10item 0).data := by
  exact ⟨by decide,
    video_cdata_raw_terminator.1 {} c10item 0 c10video (by decide)⟩

/-! ### C8: `normalizeUrl` is idempotent -/

lemma takeWhileAppendAll (p : Char → Bool) (a b : List Char)
    (ha : ∀ c ∈ a, p c = true) :
    (a ++ b).takeWhile p = a ++ b.takeWhile p := by
  induction a with
  | nil => simp
  | cons x xs ih =>
    have hx : p x = true := ha x (List.mem_cons_self x xs)
    simp only [List.cons_append, List.takeWhile_cons, hx, if_true]
    rw [ih (fun c hc => ha c (List.mem_cons_of_mem x hc))]

lemma dropWhileAppendAll (p : Char → Bool) (a b : List Char)
    (ha : ∀ c ∈ a, p c = true) :
    (a ++ b).dropWhile p = b.dropWhile p := by
  induction a with
  | nil => simp
  | cons x xs ih =>
    have hx : p x = true := ha x (List.mem_cons_self x xs)
    simp only [List.cons_append, List.dropWhile_cons, hx, if_true]
    exact ih (fun c hc => ha c (List.mem_cons_of_mem x hc))

lemma takeWhileHeadFalse (p : Char → Bool) (c : Char) (cs : List Char)
    (h : p c = false) : (c :: cs).takeWhile p = [] := by
  simp [List.takeWhile_cons, h]

lemma dropWhileHeadFalse (p : Char → Bool) (c : Char) (cs : List Char)
    (h : p c = false) : (c :: cs).dropWhile p = c :: cs := by
  simp [List.dropWhile_cons, h]

lemma memTakeWhile (p : Char → Bool) (l : List Char) (c : Char)
    (hc : c ∈ l.takeWhile p) : p c = true :=
  List.mem_takeWhile_imp hc

lemma dropWhile_of_takeWhile_nil (p : Char → Bool) (l : List Char)
    (h : l.takeWhile p = []) : l.dropWhile p = l := by
  cases l with
  | nil => rfl
  | cons c cs =>
    by_cases hc : p c = true
    · simp [List.takeWhile_cons, hc] at h
    · rw [dropWhileHeadFalse p c cs (Bool.eq_false_iff.mpr hc)]

lemma dropWhile_cons_head_false (p : Char → Bool) (l : List Char)
    (c : Char) (cs : List Char) (h : l.dropWhile p = c :: cs) : p c = false := by
  induction l with
  | nil => cases h
  | cons x xs ih =>
    by_cases hx : p x = true
    · rw [List.dropWhile_cons, if_pos hx] at h
      exact ih h
    · rw [List.dropWhile_cons, if_neg hx] at h
      cases h
      exact Bool.eq_false_iff.mpr hx

/-- The characters a query component contributes to the serialized URL. -/
def qChars : Option String → List Char
  | some q => '?' :: q.data
  | none => []

/-- The characters a fragment component contributes to the serialized URL. -/
def fChars : Option String → List Char
  | some f => '#' :: f.data
  | none => []

/-- Well-formedness of a `UrlObj`: exactly the shape invariants every object
produced by `parseUrl` satisfies, and the ones under which serialization
parses back to the same object. -/
structure UrlWf (u : UrlObj) : Prop where
  scheme_ok : u.scheme = "http" ∨ u.scheme = "https"
  host_ne : u.host.data ≠ []
  host_ok : ∀ c ∈ u.host.data, stopChar c = false
  path_ok : ∀ c ∈ u.path.data, (decide (c ≠ '?') && decide (c ≠ '#')) = true
  path_shape : u.path.data = [] ∨ ∃ t, u.path.data = '/' :: t
  query_ok : ∀ q, u.query = some q → ∀ c ∈ q.data, decide (c ≠ '#') = true

lemma serializeUrl_data (u : UrlObj) :
    (serializeUrl u).data
      = u.scheme.data ++ ':' :: '/' :: '/'
        :: (u.host.data ++ (u.path.data
          ++ (qChars u.query ++ fChars u.fragment))) := by
  cases hq : u.query <;> cases hf : u.fragment <;>
    simp [serializeUrl, hq, hf, qChars, fChars, String.data_append,
      List.append_assoc]

lemma parseAfterScheme_roundtrip (scheme : String) (u : UrlObj)
    (hne : u.host.data ≠ [])
    (hhost : ∀ c ∈ u.host.data, stopChar c = false)
    (hpath : ∀ c ∈ u.path.data, (decide (c ≠ '?') && decide (c ≠ '#')) = true)
    (hshape : u.path.data = [] ∨ ∃ t, u.path.data = '/' :: t)
    (hquery : ∀ q, u.query = some q → ∀ c ∈ q.data, decide (c ≠ '#') = true) :
    parseAfterScheme scheme
      (u.host.data ++ (u.path.data ++ (qChars u.query ++ fChars u.fragment)))
      = some ⟨scheme, u.host, u.path, u.query, u.fragment⟩ := by
  have hhost1 : ∀ c ∈ u.host.data, (!stopChar c) = true := by
    intro c hc
    rw [hhost c hc]
    rfl
  have hTtake :
      (u.path.data ++ (qChars u.query ++ fChars u.fragment)).takeWhile
        (fun c => !stopChar c) = [] := by
    rcases hshape with hp | ⟨t, hp⟩
    · rw [hp, List.nil_append]
      cases hq2 : u.query
      · cases hf2 : u.fragment
        · rfl
        · exact takeWhileHeadFalse _ _ _ (by decide)
      · exact takeWhileHeadFalse _ _ _ (by decide)
    · rw [hp, List.cons_append]
      exact takeWhileHeadFalse _ _ _ (by decide)
  have hQFtake :
      (qChars u.query ++ fChars u.fragment).takeWhile
        (fun c => decide (c ≠ '?') && decide (c ≠ '#')) = [] := by
    cases hq2 : u.query
    · cases hf2 : u.fragment
      · rfl
      · exact takeWhileHeadFalse _ _ _ (by decide)
    · exact takeWhileHeadFalse _ _ _ (by decide)
  unfold parseAfterScheme
  rw [takeWhileAppendAll _ _ _ hhost1, hTtake, List.append_nil,
    dropWhileAppendAll _ _ _ hhost1,
    dropWhile_of_takeWhile_nil _ _ hTtake,
    takeWhileAppendAll _ _ _ hpath, hQFtake, List.append_nil,
    dropWhileAppendAll _ _ _ hpath,
    dropWhile_of_takeWhile_nil _ _ hQFtake]
  have hie : u.host.data.isEmpty = false := by
    cases hd : u.host.data
    · exact absurd hd hne
    · rfl
  rw [hie, if_neg Bool.false_ne_true]
  cases hq2 : u.query with
  | none =>
    cases hf2 : u.fragment with
    | none => rfl
    | some fv => rfl
  | some qv =>
    have hqv : ∀ c ∈ qv.data, decide (c ≠ '#') = true := hquery qv hq2
    simp only [qChars, List.cons_append]
    rw [takeWhileAppendAll _ _ _ hqv, dropWhileAppendAll _ _ _ hqv]
    cases hf2 : u.fragment with
    | none =>
      simp only [fChars, List.takeWhile_nil, List.dropWhile_nil, List.append_nil]
    | some fv =>
      rw [show fChars (some fv) = '#' :: fv.data from rfl,
        takeWhileHeadFalse (fun c => decide (c ≠ '#')) '#' fv.data (by decide),
        List.append_nil,
        dropWhileHeadFalse (fun c => decide (c ≠ '#')) '#' fv.data (by decide)]
      rfl

lemma stopChar_cases (c : Char) (h : stopChar c = true) :
    c = '/' ∨ c = '?' ∨ c = '#' := by
  simpa [stopChar, Bool.or_eq_true, decide_eq_true_eq, or_assoc] using h

lemma parseAfterScheme_path_shape (l : List Char) :
    ((l.dropWhile (fun c => !stopChar c)).takeWhile
        (fun c => decide (c ≠ '?') && decide (c ≠ '#'))) = []
    ∨ ∃ t, ((l.dropWhile (fun c => !stopChar c)).takeWhile
        (fun c => decide (c ≠ '?') && decide (c ≠ '#'))) = '/' :: t := by
  cases hA : l.dropWhile (fun c => !stopChar c) with
  | nil => left; rfl
  | cons c cs =>
    have hc : (!stopChar c) = false :=
      dropWhile_cons_head_false _ l c cs hA
    have hc2 : stopChar c = true := by
      cases hsc : stopChar c
      · rw [hsc] at hc
        cases hc
      · rfl
    rcases stopChar_cases c hc2 with h | h | h
    · subst h
      right
      exact ⟨cs.takeWhile _, by rw [List.takeWhile_cons, if_pos (by decide)]⟩
    · subst h
      left
      exact takeWhileHeadFalse _ _ _ (by decide)
    · subst h
      left
      exact takeWhileHeadFalse _ _ _ (by decide)

lemma parseAfterScheme_wf (scheme : String) (l : List Char) (u : UrlObj)
    (h : parseAfterScheme scheme l = some u) :
    u.scheme = scheme
    ∧ u.host.data ≠ []
    ∧ (∀ c ∈ u.host.data, stopChar c = false)
    ∧ (∀ c ∈ u.path.data, (decide (c ≠ '?') && decide (c ≠ '#')) = true)
    ∧ (u.path.data = [] ∨ ∃ t, u.path.data = '/' :: t)
    ∧ (∀ q, u.query = some q → ∀ c ∈ q.data, decide (c ≠ '#') = true) := by
  have hhost_ok : ∀ c ∈ l.takeWhile (fun c => !stopChar c), stopChar c = false := by
    intro c hc
    have := List.mem_takeWhile_imp hc
    cases hsc : stopChar c
    · rfl
    · rw [hsc] at this
      cases this
  have hpath_ok : ∀ c ∈ (l.dropWhile (fun c => !stopChar c)).takeWhile
      (fun c => decide (c ≠ '?') && decide (c ≠ '#')),
      (decide (c ≠ '?') && decide (c ≠ '#')) = true := by
    intro c hc
    exact memTakeWhile (fun c => decide (c ≠ '?') && decide (c ≠ '#')) _ c hc
  have hshape := parseAfterScheme_path_shape l
  unfold parseAfterScheme at h
  split at h
  · cases h
  · rename_i hni
    have hne : l.takeWhile (fun c => !stopChar c) ≠ [] := by
      intro hnil
      exact hni (by rw [hnil]; rfl)
    split at h
    · split at h
      · injection h with h2
        subst h2
        refine ⟨rfl, hne, hhost_ok, hpath_ok, hshape, ?_⟩
        intro q hq
        injection hq with hq2
        subst hq2
        intro c hc
        exact memTakeWhile (fun c => decide (c ≠ '#')) _ c hc
      · injection h with h2
        subst h2
        refine ⟨rfl, hne, hhost_ok, hpath_ok, hshape, ?_⟩
        intro q hq
        injection hq with hq2
        subst hq2
        intro c hc
        exact memTakeWhile (fun c => decide (c ≠ '#')) _ c hc
    · injection h with h2
      subst h2
      refine ⟨rfl, hne, hhost_ok, hpath_ok, hshape, ?_⟩
      intro q hq
      cases hq
    · injection h with h2
      subst h2
      refine ⟨rfl, hne, hhost_ok, hpath_ok, hshape, ?_⟩
      intro q hq
      cases hq

lemma parseUrl_wf (s : String) (u : UrlObj) (h : parseUrl s = some u) :
    UrlWf u := by
  unfold parseUrl at h
  split at h
  · rename_i rest heq
    obtain ⟨h1, h2, h3, h4, h5, h6⟩ := parseAfterScheme_wf "http" rest u h
    exact ⟨Or.inl h1, h2, h3, h4, h5, h6⟩
  · rename_i rest heq
    obtain ⟨h1, h2, h3, h4, h5, h6⟩ := parseAfterScheme_wf "https" rest u h
    exact ⟨Or.inr h1, h2, h3, h4, h5, h6⟩
  · cases h

lemma parseUrl_roundtrip (u : UrlObj) (w : UrlWf u) :
    parseUrl (serializeUrl u) = some u := by
  have hu :
      u = ⟨u.scheme, u.host, u.path, u.query, u.fragment⟩ := rfl
  rcases w.scheme_ok with hs | hs
  · unfold parseUrl
    rw [serializeUrl_data u, hs,
      show ("http" : String).data = ['h', 't', 't', 'p'] from rfl]
    simp only [List.cons_append, List.nil_append]
    show parseAfterScheme "http"
        (u.host.data ++ (u.path.data ++ (qChars u.query ++ fChars u.fragment)))
      = some u
    rw [show u = ⟨"http", u.host, u.path, u.query, u.fragment⟩ from by
      rw [← hs]]
    exact parseAfterScheme_roundtrip "http" u w.host_ne w.host_ok w.path_ok
      w.path_shape w.query_ok
  · unfold parseUrl
    rw [serializeUrl_data u, hs,
      show ("https" : String).data = ['h', 't', 't', 'p', 's'] from rfl]
    simp only [List.cons_append, List.nil_append]
    show parseAfterScheme "https"
        (u.host.data ++ (u.path.data ++ (qChars u.query ++ fChars u.fragment)))
      = some u
    rw [show u = ⟨"https", u.host, u.path, u.query, u.fragment⟩ from by
      rw [← hs]]
    exact parseAfterScheme_roundtrip "https" u w.host_ne w.host_ok w.path_ok
      w.path_shape w.query_ok

/-- The normalisation `normalizeUrl` applies to a parsed URL object: clear
the fragment, and collapse an empty (or root) path to `/`. -/
def normObj (u : UrlObj) : UrlObj :=
  if u.path = "" || u.path = "/" then { u with path := "/", fragment := none }
  else { u with fragment := none }

lemma normalizeUrl_valid (s : String) (u : UrlObj)
    (hv : isValidUrl s = true) (hp : parseUrl s = some u) :
    normalizeUrl s = serializeUrl (normObj u) := by
  unfold normalizeUrl normObj
  rw [hv, hp]
  rfl

lemma isValid_parse (s : String) (hv : isValidUrl s = true) :
    ∃ u, parseUrl s = some u := by
  unfold isValidUrl at hv
  split at hv
  · cases hv
  · split at hv
    · cases hv
    · rename_i u heq
      exact ⟨u, heq⟩

lemma normObj_wf (u : UrlObj) (w : UrlWf u) : UrlWf (normObj u) := by
  unfold normObj
  split
  · exact ⟨w.scheme_ok, w.host_ne, w.host_ok,
      by intro c hc; simp only [show ("/" : String).data = ['/'] from rfl] at hc;
         rcases List.mem_singleton.mp hc with rfl; decide,
      Or.inr ⟨[], rfl⟩, w.query_ok⟩
  · exact ⟨w.scheme_ok, w.host_ne, w.host_ok, w.path_ok, w.path_shape,
      w.query_ok⟩

lemma normObj_idem (u : UrlObj) : normObj (normObj u) = normObj u := by
  by_cases h : (u.path = "" || u.path = "/") = true
  · rw [show normObj u = { u with path := "/", fragment := none } from by
      unfold normObj; rw [if_pos h]]
    unfold normObj
    rw [if_pos (show (decide (("/" : String) = "")
      || decide (("/" : String) = "/")) = true from by decide)]
  · rw [show normObj u = { u with fragment := none } from by
      unfold normObj; rw [if_neg h]]
    unfold normObj
    rw [if_neg h]

/-- C8 (confirmed): `normalizeUrl` is idempotent on every input string;
invalid inputs are returned unchanged; and on a valid input the result is the
serialization of the parsed URL with its fragment stripped and an empty (or
root) path collapsed to `/`, every other component — host, the rest of the
path, the query — preserved (captured by `normObj`, which changes only the
`fragment` and `path` fields), and it parses back to exactly that object. -/
theorem normalizeUrl_idempotent (s : String) :
    normalizeUrl (normalizeUrl s) = normalizeUrl s
    ∧ (isValidUrl s = false → normalizeUrl s = s)
    ∧ (∀ u, isValidUrl s = true → parseUrl s = some u →
        normalizeUrl s = serializeUrl (normObj u)
        ∧ parseUrl (normalizeUrl s) = some (normObj u)) := by
  have hinvalid : ∀ t : String, isValidUrl t = false → normalizeUrl t = t := by
    intro t ht
    unfold normalizeUrl
    rw [ht]
    rfl
  have hvalid : ∀ u, isValidUrl s = true → parseUrl s = some u →
      normalizeUrl s = serializeUrl (normObj u)
      ∧ parseUrl (normalizeUrl s) = some (normObj u) := by
    intro u hv hp
    have h1 := normalizeUrl_valid s u hv hp
    refine ⟨h1, ?_⟩
    rw [h1]
    exact parseUrl_roundtrip (normObj u) (normObj_wf u (parseUrl_wf s u hp))
  refine ⟨?_, hinvalid s, hvalid⟩
  by_cases hv : isValidUrl s = true
  · obtain ⟨u, hp⟩ := isValid_parse s hv
    by_cases hv2 : isValidUrl (normalizeUrl s) = true
    · have h2 := normalizeUrl_valid (normalizeUrl s) (normObj u) hv2
        (hvalid u hv hp).2
      rw [h2, (hvalid u hv hp).1, normObj_idem]
    · exact hinvalid (normalizeUrl s) (Bool.eq_false_iff.mpr hv2)
  · have hv' : isValidUrl s = false := Bool.eq_false_iff.mpr hv
    rw [hinvalid s hv']
    exact hinvalid s hv'

/-- Witness for C8: the invalid input `"notaurl"` is returned unchanged, and
the valid input `"http://a/x?q=1#frag"` has its fragment stripped with path
and query preserved; both are fixed points of a second application. -/
theorem normalizeUrl_idempotent_witness :
    (isValidUrl "notaurl" = false ∧ normalizeUrl "notaurl" = "notaurl")
    ∧ (isValidUrl "http://a/x?q=1#frag" = true
      ∧ parseUrl "http://a/x?q=1#frag"
        = some ⟨"http", "a", "/x", some "q=1", some "frag"⟩
      ∧ normalizeUrl "http://a/x?q=1#frag" = "http://a/x?q=1"
      ∧ parseUrl (normalizeUrl "http://a/x?q=1#frag")
        = some ⟨"http", "a", "/x", some "q=1", none⟩)
    ∧ normalizeUrl (normalizeUrl "http://a/x?q=1#frag")
      = normalizeUrl "http://a/x?q=1#frag" := by
  refine ⟨⟨by decide, ?_⟩, ⟨by decide, by decide, ?_, ?_⟩, ?_⟩
  · exact (normalizeUrl_idempotent "notaurl").2.1 (by decide)
  · have h := ((normalizeUrl_idempotent "http://a/x?q=1#frag").2.2
      ⟨"http", "a", "/x", some "q=1", some "frag"⟩ (by decide) (by decide)).1
    rw [h]
    rfl
  · have h := ((normalizeUrl_idempotent "http://a/x?q=1#frag").2.2
      ⟨"http", "a", "/x", some "q=1", some "frag"⟩ (by decide) (by decide)).2
    rw [h]
    rfl
  · exact (normalizeUrl_idempotent "http://a/x?q=1#frag").1
